import Mathlib

/-!
Shallow embedding of the aggregation engine of MustafaDon777/THCN
(src/scraper.py, function run_college_scraper, lines 1333-1442).

The embedding covers the crawl-session runner (per-URL retry loop,
relevance filter, session deduplicator, session cap), the merge engine
(replace / prepend-merge / no-change policy), the persisted-state loader
and the orchestrator loop over configured sources.  External
collaborators (the Playwright renderer and the per-source extractors)
are modelled by their outcomes: each attempt at a URL either fails
(render exception or extractor exception, both caught by the same
try/except) or succeeds with a list of extracted records.
-/

set_option autoImplicit false

/-- Record is the item dictionary produced by an extractor
(title, read_more_link, image_reference, description, date); the field
`extra` carries any additional fields some extractors emit, which the
engine never inspects or strips. -/
structure Record where
  title : String
  read_more_link : String
  image_reference : String
  description : String
  date : String
  extra : List (String × String)
deriving Repr, DecidableEq

/-- Whitespace test used to model the Python str.strip default. -/
def isSpaceChar (c : Char) : Bool :=
  c = ' ' || c = '\t' || c = '\n' || c = '\r'

/-- Strip leading and trailing whitespace from a character list
(model of Python str.strip with no argument). -/
def stripChars (l : List Char) : List Char :=
  ((l.dropWhile isSpaceChar).reverse.dropWhile isSpaceChar).reverse

/-- Model of the Python expression s.lower().strip() used on titles and
descriptions throughout run_college_scraper. -/
def normText (s : String) : String :=
  ⟨stripChars (s.data.map Char.toLower)⟩

/-- Decide whether needle occurs as a contiguous prefix of hay. -/
def isPrefixB : List Char → List Char → Bool
  | [], _ => true
  | _ :: _, [] => false
  | a :: as, b :: bs => a = b && isPrefixB as bs

/-- Decide whether needle occurs as a contiguous substring of hay
(model of the Python membership test kw in combined_text). -/
def containsSub (needle : List Char) : List Char → Bool
  | [] => isPrefixB needle []
  | b :: bs => isPrefixB needle (b :: bs) || containsSub needle bs

/-- KEYWORDS constant of run_college_scraper (scraper.py line 1360). -/
def KEYWORDS : List String :=
  ["student", "research", "opportunity", "program", "event", "hackathon",
   "stem", "arts", "internship", "workshop"]

/-- numOfNews constant (scraper.py line 1368): the per-session and
per-collection cap. The spec calls this maxRetained on the merge side. -/
def numOfNews : Nat := 20

/-- Combined text the keyword filter scans (scraper.py line 1395):
the lowercased, stripped title and the lowercased, stripped description
joined by one space character. -/
def combinedText (r : Record) : String :=
  normText r.title ++ " " ++ normText r.description

/-- Keyword test of scraper.py line 1400: some keyword occurs as a
substring of the combined text. -/
def keywordHit (r : Record) : Bool :=
  KEYWORDS.any (fun kw => containsSub kw.data (combinedText r).data)

/-- Relevance-filter predicate of scraper.py line 1400: passes when
use_keywords is false or some keyword occurs in the combined text. -/
def passesFilter (use_keywords : Bool) (r : Record) : Bool :=
  !use_keywords || keywordHit r

/-- Per-session mutable state of the item loop: session_college_data and
seen_descriptions (scraper.py lines 1371-1372).  The seen set is
modelled as the list of normalized descriptions added so far. -/
structure SessionState where
  session : List Record
  seen : List String
deriving Repr, DecidableEq

/-- Initial per-source state (scraper.py lines 1371-1372): empty session
list and empty seen set, rebuilt afresh for every source. -/
def initState : SessionState := ⟨[], []⟩

/-- One iteration of the item loop (scraper.py lines 1389-1402).  The
loop breaks once the session holds numOfNews records; past that point
every remaining item is left unprocessed, which a fold models as the
identity step.  Otherwise the item is skipped when its normalized
description is empty or already seen, and appended (recording its
description) when the relevance filter passes. -/
def stepItem (use_keywords : Bool) (st : SessionState) (item : Record) :
    SessionState :=
  if numOfNews ≤ st.session.length then st
  else
    let desc := normText item.description
    if desc == "" || st.seen.contains desc then st
    else if !use_keywords || keywordHit item then
      ⟨st.session ++ [item], desc :: st.seen⟩
    else st

/-- Item loop over one successful extraction (scraper.py lines 1389-1402). -/
def processItems (use_keywords : Bool) (st : SessionState)
    (items : List Record) : SessionState :=
  items.foldl (stepItem use_keywords) st

/-- Outcome of one attempt at a URL: the render call raises
(renderFail, e.g. timeout or navigation error), the extractor raises on
the rendered document (extractFail), or rendering and extraction both
succeed with a list of raw records.  Both failure kinds are caught by
the same except clause (scraper.py lines 1404-1407). -/
inductive AttemptOutcome where
  | renderFail
  | extractFail
  | ok (items : List Record)
deriving Repr, DecidableEq

/-- maxAttempts constant: the attempt loop runs range(3)
(scraper.py line 1378). -/
def maxAttempts : Nat := 3

/-- Attempt loop for one URL (scraper.py lines 1378-1407), parameterised
by the sequence of outcomes the renderer and extractor would produce on
successive attempts (missing entries default to a render failure).
Returns the number of render calls made together with the state after
the URL.  A successful attempt processes its items and breaks; a failed
attempt retries until the fuel (maxAttempts) is exhausted, after which
the URL is skipped. -/
def runAttempts (use_keywords : Bool) (st : SessionState) :
    Nat → List AttemptOutcome → Nat × SessionState
  | 0, _ => (0, st)
  | Nat.succ n, outs =>
    match outs.headD AttemptOutcome.renderFail with
    | AttemptOutcome.ok items => (1, processItems use_keywords st items)
    | AttemptOutcome.renderFail =>
      let r := runAttempts use_keywords st n outs.tail
      (r.1 + 1, r.2)
    | AttemptOutcome.extractFail =>
      let r := runAttempts use_keywords st n outs.tail
      (r.1 + 1, r.2)

/-- Process one URL with the full attempt budget. -/
def runUrl (use_keywords : Bool) (st : SessionState)
    (outs : List AttemptOutcome) : Nat × SessionState :=
  runAttempts use_keywords st maxAttempts outs

/-- URL loop for one source (scraper.py lines 1374-1407): before each
URL, break when the session already holds 50 records (scraper.py line
1375); otherwise attempt the URL and continue.  Returns the total
number of render calls and the final session state. -/
def runUrls (use_keywords : Bool) :
    SessionState → List (List AttemptOutcome) → Nat × SessionState
  | st, [] => (0, st)
  | st, outs :: rest =>
    if 50 ≤ st.session.length then (0, st)
    else
      let r1 := runUrl use_keywords st outs
      let r2 := runUrls use_keywords r1.2 rest
      (r1.1 + r2.1, r2.2)

/-- Crawl session for one source: run its URL list from the fresh
per-source state (scraper.py lines 1370-1407). -/
def runSession (use_keywords : Bool)
    (urls : List (List AttemptOutcome)) : Nat × SessionState :=
  runUrls use_keywords initState urls

/-- Merge engine at the collection level (scraper.py lines 1409-1435):
replace when the session is strictly longer than the existing
collection; otherwise, when the session is non-empty, prepend the
session items whose normalized title is not among the existing
normalized titles and truncate to numOfNews, keeping the existing
collection when no such fresh item exists; an empty session changes
nothing. -/
def mergeCollections (session existing : List Record) : List Record :=
  if existing.length < session.length then
    session
  else if !session.isEmpty then
    let existingTitles := existing.map (fun i => normText i.title)
    let fresh := session.filter
      (fun item => !existingTitles.contains (normText item.title))
    if !fresh.isEmpty then (fresh ++ existing).take numOfNews
    else existing
  else existing

/-- AggregationStore: the persisted mapping from source identifier to
its record collection, as held in final_output. -/
def Store : Type := String → Option (List Record)

/-- Store with no keys. -/
def emptyStore : Store := fun _ => none

/-- Point update of the store, modelling final_output[college_id] = v. -/
def storeSet (store : Store) (key : String) (v : List Record) : Store :=
  fun k => if k = key then some v else store k

/-- Merge engine at the store level (scraper.py lines 1409-1435):
existing_data is final_output.get(college_id, []); the replace branch
and the fresh-items branch assign final_output[college_id], the other
branches leave the mapping untouched (in particular a key absent from
the store stays absent). -/
def mergeStore (store : Store) (key : String) (session : List Record) :
    Store :=
  let existing := (store key).getD []
  if existing.length < session.length then
    storeSet store key session
  else if !session.isEmpty then
    let existingTitles := existing.map (fun i => normText i.title)
    let fresh := session.filter
      (fun item => !existingTitles.contains (normText item.title))
    if !fresh.isEmpty then
      storeSet store key ((fresh ++ existing).take numOfNews)
    else store
  else store

/-- Configuration of one source: its identifier and, for each URL in its
ordered seed list, the attempt outcomes its renderer and extractor
produce. -/
structure SourceConfig where
  id : String
  urls : List (List AttemptOutcome)

/-- Outcome of reading the persisted state file at process start:
the file is missing, it exists but json.load raises JSONDecodeError, or
it parses to a store. -/
inductive PersistedFile where
  | missing
  | corrupt
  | parsed (store : Store)

/-- Loader of the persisted state (scraper.py lines 1339-1346): a
missing file and a JSONDecodeError both yield the empty mapping; a
parsed file yields its contents.  The function is total: neither
failure case propagates an exception. -/
def loadState : PersistedFile → Store
  | PersistedFile.missing => emptyStore
  | PersistedFile.corrupt => emptyStore
  | PersistedFile.parsed s => s

/-- Orchestrator loop (scraper.py lines 1370-1435): for each configured
source in order, run its crawl session from a fresh state and merge the
session result into the store under the source key. -/
def runScraper (use_keywords : Bool) (configs : List SourceConfig)
    (store : Store) : Store :=
  configs.foldl
    (fun acc cfg =>
      mergeStore acc cfg.id (runSession use_keywords cfg.urls).2.session)
    store

/-- Record with the given title and description and empty remaining
fields, used for concrete instances. -/
def mkRec (t d : String) : Record := ⟨t, "", "", d, "", []⟩

/-- Collection of 21 records with pairwise distinct titles and
descriptions, standing for a persisted collection that already exceeds
the cap (e.g. hand-edited or written by an older version). -/
def longExisting : List Record :=
  (List.range 21).map (fun i => mkRec ("t" ++ toString i) ("d" ++ toString i))

/-- Extraction yielding 21 records with distinct non-empty descriptions,
of which the session admits exactly numOfNews. -/
def testRecs : List Record :=
  (List.range 21).map (fun i => mkRec "t" ("d" ++ toString i))

/-- One item-loop step never shrinks the session and preserves the cap. -/
theorem stepItem_length_le (u : Bool) (st : SessionState) (r : Record)
    (h : st.session.length ≤ numOfNews) :
    (stepItem u st r).session.length ≤ numOfNews := by
  simp only [stepItem]
  split
  · exact h
  · rename_i hlt
    split
    · exact h
    · split
      · simp only [List.length_append, List.length_cons, List.length_nil]
        omega
      · exact h

/-- The item loop preserves the session cap. -/
theorem processItems_length_le (u : Bool) (items : List Record)
    (st : SessionState) (h : st.session.length ≤ numOfNews) :
    (processItems u st items).session.length ≤ numOfNews := by
  induction items generalizing st with
  | nil => exact h
  | cons i rest ih =>
    exact ih (stepItem u st i) (stepItem_length_le u st i h)

/-- The attempt loop preserves the session cap. -/
theorem runAttempts_length_le (u : Bool) (st : SessionState) (n : Nat)
    (outs : List AttemptOutcome) (h : st.session.length ≤ numOfNews) :
    (runAttempts u st n outs).2.session.length ≤ numOfNews := by
  induction n generalizing outs with
  | zero => exact h
  | succ n ih =>
    unfold runAttempts
    cases houts : outs.headD AttemptOutcome.renderFail with
    | ok items => exact processItems_length_le u items st h
    | renderFail => exact ih outs.tail
    | extractFail => exact ih outs.tail

/-- The URL loop preserves the session cap. -/
theorem runUrls_length_le (u : Bool) (urls : List (List AttemptOutcome))
    (st : SessionState) (h : st.session.length ≤ numOfNews) :
    (runUrls u st urls).2.session.length ≤ numOfNews := by
  induction urls generalizing st with
  | nil => exact h
  | cons outs rest ih =>
    unfold runUrls
    split
    · exact h
    · exact ih (runUrl u st outs).2 (runAttempts_length_le u st maxAttempts outs h)

/-- Every crawl session result respects the per-session cap numOfNews. -/
theorem runSession_length_le (u : Bool) (urls : List (List AttemptOutcome)) :
    (runSession u urls).2.session.length ≤ numOfNews :=
  runUrls_length_le u urls initState (by simp [initState])

/-- With positive fuel the attempt loop makes at least one render call. -/
theorem runAttempts_calls_pos (u : Bool) (st : SessionState) (n : Nat)
    (outs : List AttemptOutcome) :
    1 ≤ (runAttempts u st (n + 1) outs).1 := by
  unfold runAttempts
  cases outs.headD AttemptOutcome.renderFail with
  | ok items => exact Nat.le_refl 1
  | renderFail => exact Nat.le_add_left 1 _
  | extractFail => exact Nat.le_add_left 1 _

/-- Starting below the cap, every configured URL receives at least one
render call: the early break of the URL loop fires only at 50 records,
which a capped session never reaches. -/
theorem runUrls_calls_ge (u : Bool) (urls : List (List AttemptOutcome))
    (st : SessionState) (h : st.session.length ≤ numOfNews) :
    urls.length ≤ (runUrls u st urls).1 := by
  induction urls generalizing st with
  | nil => exact Nat.le_refl 0
  | cons outs rest ih =>
    unfold runUrls
    split
    · rename_i h50
      exact absurd (Nat.le_trans h50 h) (by decide)
    · have h1 : 1 ≤ (runUrl u st outs).1 := runAttempts_calls_pos u st 2 outs
      have h2 := ih (runUrl u st outs).2
        (runAttempts_length_le u st maxAttempts outs h)
      dsimp only
      simp only [List.length_cons]
      omega

/-- One item-loop step keeps the seen set equal to the reversed list of
normalized descriptions of the admitted records. -/
theorem stepItem_seen_inv (u : Bool) (st : SessionState) (r : Record)
    (h : st.seen = (st.session.map (fun i => normText i.description)).reverse) :
    (stepItem u st r).seen =
      ((stepItem u st r).session.map
        (fun i => normText i.description)).reverse := by
  simp only [stepItem]
  split
  · exact h
  · split
    · exact h
    · split
      · simp [h]
      · exact h

/-- The item loop keeps the seen set equal to the reversed list of
normalized descriptions of the admitted records. -/
theorem processItems_seen_inv (u : Bool) (items : List Record)
    (st : SessionState)
    (h : st.seen = (st.session.map (fun i => normText i.description)).reverse) :
    (processItems u st items).seen =
      ((processItems u st items).session.map
        (fun i => normText i.description)).reverse := by
  induction items generalizing st with
  | nil => exact h
  | cons i rest ih => exact ih (stepItem u st i) (stepItem_seen_inv u st i h)

/-- Below the cap, one item-loop step appends the record exactly when
its normalized description is non-empty and unseen and the keyword
filter passes. -/
theorem stepItem_append_iff (u : Bool) (st : SessionState) (r : Record)
    (hcap : st.session.length < numOfNews) :
    (stepItem u st r).session = st.session ++ [r] ↔
      ((normText r.description == "") = false ∧
       st.seen.contains (normText r.description) = false ∧
       (!u || keywordHit r) = true) := by
  have hne : st.session ≠ st.session ++ [r] := by simp
  simp only [stepItem]
  rw [if_neg (Nat.not_le.mpr hcap)]
  cases h1 : (normText r.description == "") <;>
    cases h2 : st.seen.contains (normText r.description) <;>
    cases h3 : (!u || keywordHit r) <;>
    simp [h1, h2, h3, hne]

/-- When an attempt loop sees only failures it uses all its fuel, makes
one render call per unit of fuel and leaves the state unchanged. -/
theorem runAttempts_allFail (u : Bool) (st : SessionState) (n : Nat)
    (outs : List AttemptOutcome)
    (hfail : ∀ o ∈ outs,
      o = AttemptOutcome.renderFail ∨ o = AttemptOutcome.extractFail) :
    runAttempts u st n outs = (n, st) := by
  induction n generalizing outs with
  | zero => rfl
  | succ n ih =>
    cases outs with
    | nil =>
      have hrec := ih [] (by intro o ho; cases ho)
      simp [runAttempts, hrec]
    | cons o os =>
      have htail : ∀ x ∈ os,
          x = AttemptOutcome.renderFail ∨ x = AttemptOutcome.extractFail :=
        fun x hx => hfail x (List.mem_cons_of_mem o hx)
      rcases hfail o (List.mem_cons_self o os) with ho | ho <;>
        subst ho <;> simp [runAttempts, ih os htail]

/-- Merging under one source key never touches any other key. -/
theorem mergeStore_apply_ne (store : Store) (key : String)
    (session : List Record) (k : String) (hk : k ≠ key) :
    mergeStore store key session k = store k := by
  simp only [mergeStore]
  split
  · simp [storeSet, hk]
  · split
    · split
      · simp [storeSet, hk]
      · rfl
    · rfl

/-- C1: for every non-empty session result strictly longer than the
existing collection, the merge engine replaces the collection with the
session result truncated to the first numOfNews entries, regardless of
content overlap; the truncation is the identity because every session
result is already capped at numOfNews. -/
theorem merge_replace_truncation (u : Bool)
    (urls : List (List AttemptOutcome)) (existing : List Record)
    (hne : (runSession u urls).2.session ≠ [])
    (hgt : existing.length < (runSession u urls).2.session.length) :
    mergeCollections (runSession u urls).2.session existing =
      ((runSession u urls).2.session).take numOfNews := by
  have hs := runSession_length_le u urls
  rw [List.take_of_length_le hs]
  simp [mergeCollections, hgt]

/-- Witness for C1 at a one-record session and an empty existing
collection. -/
theorem merge_replace_truncation_witness :
    mergeCollections
        (runSession false [[AttemptOutcome.ok [mkRec "t" "d"]]]).2.session [] =
      ((runSession false
        [[AttemptOutcome.ok [mkRec "t" "d"]]]).2.session).take numOfNews :=
  merge_replace_truncation false [[AttemptOutcome.ok [mkRec "t" "d"]]] []
    (by decide) (by decide)

/-- C3: merging an empty session result is a no-op on the store, for
every existing state of the source key (present or absent). -/
theorem merge_empty_session_noop (store : Store) (key : String) :
    mergeStore store key [] = store := by
  simp [mergeStore]

/-- C4 counterexample: the empty session result of a source with no
URLs merged with a 21-record persisted collection keeps all 21 records,
so the merged collection exceeds numOfNews and the unconditional cap
invariant fails. -/
theorem merge_cap_counterexample :
    (mergeCollections (runSession true []).2.session longExisting).length
        = 21 ∧
    ¬ (mergeCollections (runSession true []).2.session
        longExisting).length ≤ numOfNews := by decide

/-- C4 amended: for every session result and every existing collection
whose length is at most numOfNews, the merged collection has length at
most numOfNews. -/
theorem merge_cap_bounded (u : Bool) (urls : List (List AttemptOutcome))
    (existing : List Record) (hex : existing.length ≤ numOfNews) :
    (mergeCollections (runSession u urls).2.session existing).length ≤
      numOfNews := by
  have hs := runSession_length_le u urls
  simp only [mergeCollections]
  split
  · exact hs
  · split
    · split
      · simp only [List.length_take]
        exact Nat.min_le_left _ _
      · exact hex
    · exact hex

/-- Witness for C4 amended at a one-record session and an empty
existing collection. -/
theorem merge_cap_bounded_witness :
    (mergeCollections
        (runSession false [[AttemptOutcome.ok [mkRec "t" "d"]]]).2.session
        []).length ≤ numOfNews :=
  merge_cap_bounded false [[AttemptOutcome.ok [mkRec "t" "d"]]] [] (by decide)

/-- C7 counterexample: a source whose first URL yields 21 admissible
records fills its session to numOfNews at that URL, yet a configured
second URL is still rendered (two render calls in total instead of
one), so reaching the cap does not stop URL processing. -/
theorem session_cap_counterexample :
    (runSession false [[AttemptOutcome.ok testRecs]]).2.session.length =
        numOfNews ∧
    (runSession false [[AttemptOutcome.ok testRecs],
        [AttemptOutcome.ok testRecs]]).1 = 2 := by decide

/-- C7 amended: once the session result reaches numOfNews no further
record is admitted (the item loop is the identity past the cap, and the
session result never exceeds numOfNews), but later URLs of the source
are still rendered: every configured URL receives at least one render
call, because the URL loop's early break fires only at 50 records,
which a capped session never reaches. -/
theorem session_cap_render_calls (u : Bool)
    (urls : List (List AttemptOutcome)) :
    (runSession u urls).2.session.length ≤ numOfNews ∧
    urls.length ≤ (runSession u urls).1 ∧
    ∀ st r, numOfNews ≤ st.session.length → stepItem u st r = st :=
  ⟨runSession_length_le u urls,
   runUrls_calls_ge u urls initState (by simp [initState]),
   fun st r h => by simp [stepItem, h]⟩

/-- Witness for C7 amended: the cap bound at a concrete session together
with the identity step at a concrete full state. -/
theorem session_cap_render_calls_witness :
    (runSession false [[AttemptOutcome.ok testRecs]]).2.session.length ≤
        numOfNews ∧
    stepItem false ⟨longExisting, []⟩ (mkRec "x" "y") = ⟨longExisting, []⟩ :=
  ⟨(session_cap_render_calls false [[AttemptOutcome.ok testRecs]]).1,
   (session_cap_render_calls false [[AttemptOutcome.ok testRecs]]).2.2
    ⟨longExisting, []⟩ (mkRec "x" "y") (by decide)⟩

/-- C9: loading the persisted state yields the empty store both when
the state file is missing and when its content fails JSON parsing; the
loader is a total function of the file condition, so neither case
raises to the caller or aborts the run. -/
theorem load_state_recovery :
    loadState PersistedFile.missing = emptyStore ∧
    loadState PersistedFile.corrupt = emptyStore :=
  ⟨rfl, rfl⟩

/-- C2: when the session result is non-empty and not longer than the
existing collection, the merge engine computes the ordered subsequence
of session items whose normalized title is not among the normalized
titles of the existing collection; when that subsequence is empty the
existing collection is kept unchanged, otherwise the subsequence is
prepended to the existing collection and the result truncated to the
first numOfNews entries; in particular existing [A, B] merged with
session [C, A] yields [C, A, B]. -/
theorem merge_prepend (session existing : List Record)
    (hne : session ≠ []) (hle : session.length ≤ existing.length) :
    (session.filter (fun i => decide (normText i.title ∉
        existing.map (fun j => normText j.title))) = [] →
      mergeCollections session existing = existing) ∧
    (session.filter (fun i => decide (normText i.title ∉
        existing.map (fun j => normText j.title))) ≠ [] →
      mergeCollections session existing =
        (session.filter (fun i => decide (normText i.title ∉
          existing.map (fun j => normText j.title))) ++ existing).take
          numOfNews) ∧
    mergeCollections [mkRec "C" "dc", mkRec "A" "da"]
        [mkRec "A" "x", mkRec "B" "y"] =
      [mkRec "C" "dc", mkRec "A" "x", mkRec "B" "y"] := by
  obtain ⟨a, as, rfl⟩ := List.exists_cons_of_ne_nil hne
  have hfil : (a :: as).filter (fun i =>
      !(existing.map (fun j => normText j.title)).contains
        (normText i.title)) =
      (a :: as).filter (fun i => decide (normText i.title ∉
        existing.map (fun j => normText j.title))) := by
    apply List.filter_congr
    intro x _
    by_cases hx : normText x.title ∈ existing.map (fun j => normText j.title) <;>
      simp [hx]
  refine ⟨?_, ?_, by decide⟩
  · intro hf
    simp only [mergeCollections]
    rw [if_neg (Nat.not_lt.mpr hle), hfil, hf]
    simp
  · intro hf
    simp only [mergeCollections]
    rw [if_neg (Nat.not_lt.mpr hle), hfil]
    have hie : ((a :: as).filter (fun i => decide (normText i.title ∉
        existing.map (fun j => normText j.title)))).isEmpty = false := by
      simpa [List.isEmpty_iff] using hf
    rw [hie]
    simp

/-- Witness for C2 at the collections of the prepend-correctness
example of the specification. -/
theorem merge_prepend_witness :
    mergeCollections [mkRec "C" "dc", mkRec "A" "da"]
        [mkRec "A" "x", mkRec "B" "y"] =
      [mkRec "C" "dc", mkRec "A" "x", mkRec "B" "y"] :=
  (merge_prepend [mkRec "C" "dc", mkRec "A" "da"]
    [mkRec "A" "x", mkRec "B" "y"] (by decide) (by decide)).2.2

/-- Relevance filter read literally from the specification wording: the
lowercase concatenation of title and description (no trimming, no
separator) must contain some keyword as a substring.  This definition
follows the specification text and exists only to be compared with
passesFilter, which embeds the code. -/
def specFilter (use_keywords : Bool) (r : Record) : Bool :=
  !use_keywords ||
    KEYWORDS.any (fun kw =>
      containsSub kw.data ((r.title ++ r.description).data.map Char.toLower))

/-- C5 counterexample: with useKeywords true, the record with title
"work" and description "shop" passes the filter as the claim words it
(the lowercase concatenation "workshop" contains the keyword
"workshop"), yet the code drops it, because the code scans the
space-joined text "work shop"; its normalized description is non-empty
and unseen, so the drop is the filter's doing, not the deduplicator's. -/
theorem filter_concat_counterexample :
    specFilter true (mkRec "work" "shop") = true ∧
    passesFilter true (mkRec "work" "shop") = false ∧
    normText (mkRec "work" "shop").description ≠ "" ∧
    stepItem true initState (mkRec "work" "shop") = initState := by decide

/-- C5 amended: the relevance filter passes a record iff useKeywords is
false or the text obtained by joining the trimmed lowercased title and
the trimmed lowercased description with one space contains a keyword as
a substring; a record with empty description is always dropped whatever
the flag; a processed record either leaves the session untouched or is
appended to it, so dropped records never count toward the session cap;
and below the cap, for an unseen non-empty normalized description,
admission is equivalent to the filter passing.  The keyword-set
examples of the specification hold: description "Join our workshop"
passes and "Gala dinner" is dropped under useKeywords. -/
theorem filter_gating (u : Bool) (st : SessionState) (r : Record)
    (hcap : st.session.length < numOfNews) :
    (r.description = "" → stepItem u st r = st) ∧
    (stepItem u st r = st ∨ (stepItem u st r).session = st.session ++ [r]) ∧
    (normText r.description ≠ "" →
      st.seen.contains (normText r.description) = false →
      ((stepItem u st r).session = st.session ++ [r] ↔
        passesFilter u r = true)) ∧
    passesFilter true (mkRec "t" "Join our workshop") = true ∧
    passesFilter true (mkRec "t" "Gala dinner") = false := by
  refine ⟨?_, ?_, ?_, by decide, by decide⟩
  · intro hd
    have hnd : normText r.description = "" := by rw [hd]; decide
    simp [stepItem, hnd]
  · simp only [stepItem]
    split
    · exact Or.inl rfl
    · split
      · exact Or.inl rfl
      · split
        · exact Or.inr rfl
        · exact Or.inl rfl
  · intro hd hseen
    rw [stepItem_append_iff u st r hcap]
    have hflt : passesFilter u r = (!u || keywordHit r) := rfl
    have hmem : normText r.description ∉ st.seen := by simpa using hseen
    simp [hflt, hd, hmem]

/-- Witness for C5 amended at the empty initial state and the record
with description "Join our workshop" under useKeywords. -/
theorem filter_gating_witness :
    ((mkRec "t" "Join our workshop").description = "" →
      stepItem true initState (mkRec "t" "Join our workshop") = initState) ∧
    (stepItem true initState (mkRec "t" "Join our workshop") = initState ∨
      (stepItem true initState (mkRec "t" "Join our workshop")).session =
        initState.session ++ [mkRec "t" "Join our workshop"]) ∧
    (normText (mkRec "t" "Join our workshop").description ≠ "" →
      initState.seen.contains
        (normText (mkRec "t" "Join our workshop").description) = false →
      ((stepItem true initState (mkRec "t" "Join our workshop")).session =
          initState.session ++ [mkRec "t" "Join our workshop"] ↔
        passesFilter true (mkRec "t" "Join our workshop") = true)) ∧
    passesFilter true (mkRec "t" "Join our workshop") = true ∧
    passesFilter true (mkRec "t" "Gala dinner") = false :=
  filter_gating true initState (mkRec "t" "Join our workshop") (by decide)

/-- C6: within one session, a filter-passing candidate below the cap is
admitted iff its trimmed lowercased description is non-empty and is not
the trimmed lowercased description of any previously admitted record of
the same session; matching is exact, so "abc" and "abd" are both
admitted, while a second record whose description differs only in case
and surrounding whitespace is treated as a duplicate and only the first
is retained; and the seen set starts empty for every source. -/
theorem dedup_admission (u : Bool) (items : List Record) (r : Record)
    (hcap : (processItems u initState items).session.length < numOfNews)
    (hflt : passesFilter u r = true) :
    ((stepItem u (processItems u initState items) r).session =
        (processItems u initState items).session ++ [r] ↔
      (normText r.description ≠ "" ∧
        normText r.description ∉
          (processItems u initState items).session.map
            (fun i => normText i.description))) ∧
    (processItems false initState
        [mkRec "t1" "abc", mkRec "t2" "abd"]).session =
      [mkRec "t1" "abc", mkRec "t2" "abd"] ∧
    (processItems false initState
        [mkRec "t1" "abc", mkRec "t2" " ABC "]).session =
      [mkRec "t1" "abc"] ∧
    initState.seen = [] := by
  refine ⟨?_, by decide, by decide, rfl⟩
  have hseen := processItems_seen_inv u items initState (by simp [initState])
  rw [stepItem_append_iff u (processItems u initState items) r hcap, hseen]
  have hflt2 : (!u || keywordHit r) = true := hflt
  simp [hflt2]

/-- Witness for C6 at a one-item session prefix and a fresh record. -/
theorem dedup_admission_witness :
    ((stepItem false (processItems false initState [mkRec "a" "x"])
        (mkRec "b" "y")).session =
      (processItems false initState [mkRec "a" "x"]).session ++
        [mkRec "b" "y"] ↔
      (normText (mkRec "b" "y").description ≠ "" ∧
        normText (mkRec "b" "y").description ∉
          (processItems false initState [mkRec "a" "x"]).session.map
            (fun i => normText i.description))) ∧
    (processItems false initState
        [mkRec "t1" "abc", mkRec "t2" "abd"]).session =
      [mkRec "t1" "abc", mkRec "t2" "abd"] ∧
    (processItems false initState
        [mkRec "t1" "abc", mkRec "t2" " ABC "]).session =
      [mkRec "t1" "abc"] ∧
    initState.seen = [] :=
  dedup_admission false [mkRec "a" "x"] (mkRec "b" "y") (by decide) (by decide)

/-- C8: for a URL whose render or extraction fails on every attempt,
exactly maxAttempts render calls are made, the session state is
unchanged, the source's remaining URLs are processed exactly as if the
exhausted URL were absent, and an extraction failure drives the attempt
loop exactly like a render failure. -/
theorem retry_exhaustion (u : Bool) (st : SessionState)
    (outs : List AttemptOutcome) (rest : List (List AttemptOutcome))
    (hfail : ∀ o ∈ outs,
      o = AttemptOutcome.renderFail ∨ o = AttemptOutcome.extractFail)
    (hcap : st.session.length < 50) :
    runUrl u st outs = (maxAttempts, st) ∧
    runUrls u st (outs :: rest) =
      (maxAttempts + (runUrls u st rest).1, (runUrls u st rest).2) ∧
    ∀ os, runUrl u st (AttemptOutcome.extractFail :: os) =
      runUrl u st (AttemptOutcome.renderFail :: os) := by
  have h1 : runUrl u st outs = (maxAttempts, st) :=
    runAttempts_allFail u st maxAttempts outs hfail
  refine ⟨h1, ?_, fun os => rfl⟩
  have hstep : runUrls u st (outs :: rest) =
      if 50 ≤ st.session.length then (0, st)
      else ((runUrl u st outs).1 + (runUrls u (runUrl u st outs).2 rest).1,
            (runUrls u (runUrl u st outs).2 rest).2) := rfl
  rw [hstep, if_neg (Nat.not_le.mpr hcap)]
  simp [h1]

/-- Witness for C8: three failing attempts (render, extraction, render)
on the first URL of a two-URL source. -/
theorem retry_exhaustion_witness :
    runUrl false initState
        [AttemptOutcome.renderFail, AttemptOutcome.extractFail,
         AttemptOutcome.renderFail] = (maxAttempts, initState) ∧
    runUrls false initState
        ([AttemptOutcome.renderFail, AttemptOutcome.extractFail,
          AttemptOutcome.renderFail] ::
         [[AttemptOutcome.ok [mkRec "t" "d"]]]) =
      (maxAttempts +
        (runUrls false initState [[AttemptOutcome.ok [mkRec "t" "d"]]]).1,
       (runUrls false initState [[AttemptOutcome.ok [mkRec "t" "d"]]]).2) :=
  ⟨(retry_exhaustion false initState
      [AttemptOutcome.renderFail, AttemptOutcome.extractFail,
       AttemptOutcome.renderFail] [[AttemptOutcome.ok [mkRec "t" "d"]]]
      (by decide) (by decide)).1,
   (retry_exhaustion false initState
      [AttemptOutcome.renderFail, AttemptOutcome.extractFail,
       AttemptOutcome.renderFail] [[AttemptOutcome.ok [mkRec "t" "d"]]]
      (by decide) (by decide)).2.1⟩

/-- Persisted collection of a source no longer configured: one record
with an unknown extra field followed by 21 further records, 22 in all,
exceeding numOfNews. -/
def legacyCollection : List Record :=
  ⟨"t0", "l", "img", "d0", "2024", [("unknown_field", "kept")]⟩ ::
    longExisting

/-- Store loaded from disk holding the legacy collection under a key
that no configured source uses. -/
def legacyStore : Store := storeSet emptyStore "legacy" legacyCollection

/-- C10: a key present in the loaded store but absent from the run's
configured sources reaches the final store with its collection exactly
unchanged, whatever its length or extra fields: the orchestrator only
ever reassigns the keys of configured sources. -/
theorem frame_unconfigured_keys (u : Bool) (configs : List SourceConfig)
    (store : Store) (k : String)
    (hk : k ∉ configs.map SourceConfig.id) :
    runScraper u configs store k = store k := by
  induction configs generalizing store with
  | nil => rfl
  | cons cfg rest ih =>
    have hk1 : k ≠ cfg.id := by
      intro h
      exact hk (by simp [h])
    have hk2 : k ∉ rest.map SourceConfig.id := by
      intro h
      exact hk (by simp [h])
    calc runScraper u (cfg :: rest) store k
        = runScraper u rest
            (mergeStore store cfg.id (runSession u cfg.urls).2.session) k := rfl
      _ = mergeStore store cfg.id (runSession u cfg.urls).2.session k :=
          ih _ hk2
      _ = store k := mergeStore_apply_ne store cfg.id _ k hk1

/-- Witness for C10: one configured source, and a legacy key holding an
over-long collection with an extra field, preserved byte for byte. -/
theorem frame_unconfigured_keys_witness :
    runScraper false [⟨"slu", [[AttemptOutcome.ok [mkRec "t" "d"]]]⟩]
        legacyStore "legacy" = legacyStore "legacy" :=
  frame_unconfigured_keys false
    [⟨"slu", [[AttemptOutcome.ok [mkRec "t" "d"]]]⟩] legacyStore "legacy"
    (by decide)
